import Mathlib

/-!
# Verification of the Alto proxy property-import pipeline

Shallow embedding of the two JavaScript source variants of the Alto proxy
(`src/index.js` is the authoritative variant; `src/unnamed/part_000` differs
only in details noted inline).  JavaScript values produced by the XML parser
and the JSON request body are modelled by the inductive type `JVal`;
JavaScript semantics (truthiness, property access, `||`, string coercion,
`parseFloat`/`parseInt`) are modelled by explicit total functions.

Modelling notes, fixed once here:
* JS numbers are modelled as exact rationals; the vendor feed only carries
  short decimal numerals, for which IEEE-754 parsing is exact.
* `parseFloat` is modelled for plain decimal numerals (optional sign, digits,
  optional fraction, longest prefix); exponent notation and `Infinity` do not
  occur in the vendor feed and are not modelled.  `parseInt` is modelled for
  decimal input (the implicit-hex `0x` corner of JS `parseInt` is unused).
* `toLowerCase` is modelled on ASCII letters; the searched keywords are ASCII.
* Prototype-chain property access is not modelled: reading an absent key
  yields `undefined`, numeric indices read array elements and string
  characters, as the source relies on.
-/

namespace Alto

mutual
/-- A JavaScript value as it occurs in this program: `null`, `undefined`,
strings, numbers, booleans, arrays and plain objects (ordered key/value
fields, first occurrence of a key wins on lookup). -/
inductive JVal where
  | jnull
  | jundefined
  | jstr (s : String)
  | jnum (q : ℚ)
  | jbool (b : Bool)
  | jarr (xs : JList)
  | jobj (fs : JFields)

inductive JList where
  | nil
  | cons (hd : JVal) (tl : JList)

inductive JFields where
  | nil
  | cons (key : String) (val : JVal) (tl : JFields)
end

namespace JList

/-- Convert an embedded array to a Lean list of its elements. -/
def toList : JList → List JVal
  | .nil => []
  | .cons v tl => v :: toList tl

/-- Build an embedded array from a Lean list. -/
def ofList : List JVal → JList
  | [] => .nil
  | v :: tl => .cons v (ofList tl)

/-- Zero-based element access, `undefined`-free version (`Option`). -/
def get? : JList → Nat → Option JVal
  | .nil, _ => none
  | .cons v _, 0 => some v
  | .cons _ tl, n + 1 => get? tl n

end JList

namespace JFields

/-- Own-property lookup on an object: first field with the given key. -/
def lookup : JFields → String → Option JVal
  | .nil, _ => none
  | .cons k v tl, key => if k == key then some v else lookup tl key

/-- Build an embedded object from a Lean association list. -/
def ofList : List (String × JVal) → JFields
  | [] => .nil
  | (k, v) :: tl => .cons k v (ofList tl)

end JFields

/-- Shorthand: embedded array literal. -/
def jarrL (l : List JVal) : JVal := .jarr (JList.ofList l)

/-- Shorthand: embedded object literal. -/
def jobjL (l : List (String × JVal)) : JVal := .jobj (JFields.ofList l)

/-- JS truthiness: `null`, `undefined`, `""`, `0` and `false` are falsy,
everything else (including `[]` and `{}`) is truthy.  (`NaN` is not a
representable `JVal`; `parseFloat` failure is modelled as `Option.none`
before it could be stored.) -/
def truthy : JVal → Bool
  | .jnull => false
  | .jundefined => false
  | .jstr s => !(s == "")
  | .jnum q => !(q == 0)
  | .jbool b => b
  | .jarr _ => true
  | .jobj _ => true

/-- JS `a || b`. -/
def jsOr (a b : JVal) : JVal := if truthy a then a else b

/-- JS `a || undefined` (used for optional output fields). -/
def jsOrElseOmit (a : JVal) : JVal := if truthy a then a else .jundefined

/-- JS strict equality against a string literal, `v === 's'`. -/
def strictEqStr (v : JVal) (s : String) : Bool :=
  match v with
  | .jstr t => t == s
  | _ => false

/-- Digits of a canonical decimal array index: `"0"`, or digits with no
leading zero.  JS arrays treat only such keys as element indices. -/
def strToIndex (k : String) : Option Nat :=
  match k.toList with
  | [] => none
  | ['0'] => some 0
  | c :: cs =>
    if c.isDigit && !(c == '0') && cs.all Char.isDigit then
      some ((c :: cs).foldl (fun a d => a * 10 + (d.toNat - '0'.toNat)) 0)
    else none

/-- One JS property read `v?.[key]` (optional chaining): `undefined` when the
receiver is nullish or the key is absent; array and string numeric indexing
included. -/
def jindex : JVal → String → JVal
  | .jobj fs, k =>
    match fs.lookup k with
    | some v => v
    | none => .jundefined
  | .jarr xs, k =>
    match strToIndex k with
    | some i =>
      match xs.get? i with
      | some v => v
      | none => .jundefined
    | none => .jundefined
  | .jstr s, k =>
    match strToIndex k with
    | some i =>
      match s.toList.get? i with
      | some c => .jstr (String.mk [c])
      | none => .jundefined
    | none => .jundefined
  | _, _ => .jundefined

/-- Source `path.split('.')` on the character list: JS `String.prototype.split`
with a one-character separator (empty input gives `[""]`). -/
def splitPathAux : List Char → List Char → List String
  | acc, [] => [String.mk acc.reverse]
  | acc, '.' :: rest => String.mk acc.reverse :: splitPathAux [] rest
  | acc, c :: rest => splitPathAux (c :: acc) rest

/-- Source `path.split('.')`. -/
def splitPath (path : String) : List String := splitPathAux [] path.toList

/-- The loop of `get` (src/index.js lines 23–26): repeatedly
`result = result?.[key]`, returning early (`none`, i.e. the function's
`return null`) as soon as the value becomes `undefined`. -/
def walkKeys : JVal → List String → Option JVal
  | v, [] => some v
  | v, k :: ks =>
    match jindex v k with
    | .jundefined => none
    | r => walkKeys r ks

/-- Source `get(obj, path)` (src/index.js lines 20–29, identical in part_000
lines 178–187): walk the dot-separated keys; afterwards a nonempty array
result is replaced by its first element, and any other result is coerced
through `result || null`. -/
def get (obj : JVal) (path : String) : JVal :=
  match walkKeys obj (splitPath path) with
  | none => .jnull
  | some r =>
    match r with
    | .jarr (.cons x _) => x
    | v => if truthy v then v else .jnull

/-- JS integer-to-string; fractional values never occur where the program
stringifies a number, so their JS formatting is not reproduced. -/
def numToString (q : ℚ) : String :=
  if q.den = 1 then toString q.num else toString q

mutual
/-- JS `String(v)` for the values of this program: `null`/`undefined` print
their names, arrays print as their elements joined with `","` where nullish
elements print as `""`, plain objects print `"[object Object]"`. -/
def jsToString : JVal → String
  | .jnull => "null"
  | .jundefined => "undefined"
  | .jstr s => s
  | .jnum q => numToString q
  | .jbool b => cond b "true" "false"
  | .jobj _ => "[object Object]"
  | .jarr xs => jsJoinList xs
termination_by structural v => v

/-- Array stringification: elements joined with `","`, nullish as `""`. -/
def jsJoinList : JList → String
  | .nil => ""
  | .cons v rest =>
    let item :=
      match v with
      | .jnull => ""
      | .jundefined => ""
      | w => jsToString w
    match rest with
    | .nil => item
    | _ => item ++ "," ++ jsJoinList rest
termination_by structural l => l
end

/-- One element of `Array.prototype.join`: nullish elements contribute the
empty string, others their string coercion. -/
def jsJoinItem : JVal → String
  | .jnull => ""
  | .jundefined => ""
  | v => jsToString v

/-- JS `[...].join(sep)` on a meta-level list of values. -/
def jsJoin (sep : String) : List JVal → String
  | [] => ""
  | [v] => jsJoinItem v
  | v :: rest => jsJoinItem v ++ sep ++ jsJoin sep rest

/-- ASCII lower-casing of one character (the classifier's keywords are
ASCII, so JS `toLowerCase` agrees with this on all relevant inputs). -/
def charLower (c : Char) : Char :=
  if 'A' ≤ c ∧ c ≤ 'Z' then Char.ofNat (c.toNat + 32) else c

/-- JS `s.toLowerCase()` (ASCII model). -/
def toLowerStr (s : String) : String := String.mk (s.toList.map charLower)

/-- Character-list prefix test. -/
def isPrefOf : List Char → List Char → Bool
  | [], _ => true
  | _ :: _, [] => false
  | a :: as, b :: bs => a == b && isPrefOf as bs

/-- Character-list substring test: `pat` occurs inside the second list. -/
def hasSubList (pat : List Char) : List Char → Bool
  | [] => pat.isEmpty
  | c :: tl => isPrefOf pat (c :: tl) || hasSubList pat tl

/-- JS `s.includes(pat)`: substring occurrence. -/
def containsSubstr (s pat : String) : Bool := hasSubList pat.toList s.toList

/-- Numeric value of a digit list. -/
def digitsVal (ds : List Char) : Nat :=
  ds.foldl (fun a d => a * 10 + (d.toNat - '0'.toNat)) 0

/-- JS leading whitespace (the forms that could occur in feed text). -/
def isWs (c : Char) : Bool := c == ' ' || c == '\t' || c == '\n' || c == '\r'

/-- JS `parseFloat` on a string, for plain decimal numerals: skip leading
whitespace, optional sign, longest prefix of digits with at most one dot,
`none` (JS `NaN`) when no digit is consumed. -/
def parseFloatChars (cs0 : List Char) : Option ℚ :=
  let cs1 := cs0.dropWhile isWs
  let sign : ℤ := match cs1 with
    | '-' :: _ => -1
    | _ => 1
  let cs2 := match cs1 with
    | '-' :: rest => rest
    | '+' :: rest => rest
    | _ => cs1
  let intDs := cs2.takeWhile Char.isDigit
  let rest := cs2.dropWhile Char.isDigit
  let fracDs := match rest with
    | '.' :: r2 => r2.takeWhile Char.isDigit
    | _ => []
  if intDs.isEmpty && fracDs.isEmpty then none
  else
    some (mkRat (sign * ((digitsVal intDs : ℤ) * 10 ^ fracDs.length + (digitsVal fracDs : ℤ)))
      (10 ^ fracDs.length))

/-- JS `parseFloat(String(v))` (`parseFloat` coerces its argument). -/
def parseFloatJ (v : JVal) : Option ℚ := parseFloatChars (jsToString v).toList

/-- JS `parseInt` on a string, decimal: skip leading whitespace, optional
sign, longest digit prefix, `none` (JS `NaN`) when no digit is consumed. -/
def parseIntChars (cs0 : List Char) : Option ℤ :=
  let cs1 := cs0.dropWhile isWs
  let sign : ℤ := match cs1 with
    | '-' :: _ => -1
    | _ => 1
  let cs2 := match cs1 with
    | '-' :: rest => rest
    | '+' :: rest => rest
    | _ => cs1
  let ds := cs2.takeWhile Char.isDigit
  if ds.isEmpty then none else some (sign * (digitsVal ds : ℤ))

/-- JS `parseInt(String(v))`. -/
def parseIntJ (v : JVal) : Option ℤ := parseIntChars (jsToString v).toList

/-- JS `parseFloat(v) || null`: `NaN` and a parsed `0` are falsy, so both
fall through to `null`; modelled as `Option ℚ` with `none` for `null`. -/
def floatOrNull (v : JVal) : Option ℚ :=
  match parseFloatJ v with
  | none => none
  | some q => if q = 0 then none else some q

/-- JS `parseInt(v) || 0`: `NaN` falls through to `0`; a parsed `0` is
already `0`. -/
def intOrZero (v : JVal) : ℤ := (parseIntJ v).getD 0

/-- JS `parseFloat(v) || 0` (used for `rm_type`). -/
def floatOrZero (v : JVal) : ℚ :=
  match parseFloatJ v with
  | none => 0
  | some q => q

/-- Source `mapType` (src/index.js lines 135–139, part_000 lines 222–226). -/
def mapType (rmType : ℚ) : String :=
  if 1 ≤ rmType ∧ rmType ≤ 6 then "house"
  else if rmType = 9 then "studio"
  else "flat"

/-- The classification text (src/index.js lines 206–211): the four fields
read through `get`, joined by `' '` (JS `join` renders `null` as `""`),
lower-cased. -/
def classificationText (property : JVal) : String :=
  toLowerStr (jsJoin " " [get property "letting_type", get property "market",
    get property "description", get property "title"])

/-- The bedroom count used by the classifier and the mapper:
`parseInt(get(property, 'bedrooms')) || 0`. -/
def bedroomsOf (property : JVal) : ℤ := intOrZero (get property "bedrooms")

/-- The is-student-letting predicate (src/index.js lines 213–215; the
part_000 variant at lines 131–132 omits the last two disjuncts). -/
def isStudent (property : JVal) : Bool :=
  let text := classificationText property
  containsSubstr text "student" || decide (3 ≤ bedroomsOf property) ||
    containsSubstr text "letting" || containsSubstr text "to let"

/-- The is-available predicate (src/index.js lines 222–223, part_000
lines 139–140). -/
def isAvailable (property : JVal) : Bool :=
  let webStatus := get property "web_status"
  !truthy webStatus || strictEqStr webStatus "0" || strictEqStr webStatus "100"

/-- JS `v?.[0]`: optional chaining then index `0`. -/
def optIndex0 : JVal → JVal
  | .jnull => .jundefined
  | .jundefined => .jundefined
  | v => jindex v "0"

/-- Source `property.address?.[0] || {}` (src/index.js line 90). -/
def addressOf (property : JVal) : JVal :=
  jsOr (optIndex0 (jindex property "address")) (.jobj .nil)

/-- Source `property.price?.[0] || {}` (src/index.js line 91). -/
def priceOf (property : JVal) : JVal :=
  jsOr (optIndex0 (jindex property "price")) (.jobj .nil)

/-- Source `const files = property.files || []; Array.isArray(files) ? files :
[files]` (src/index.js lines 92–93): the attachment list, normalized to an
array even when the vendor returned a single object. -/
def fileListOf (property : JVal) : List JVal :=
  match jsOr (jindex property "files") (.jarr .nil) with
  | .jarr xs => xs.toList
  | v => [v]

/-- Source `fileList.filter(f => get(f, 'type') === c).map(f => get(f, 'url'))
.filter(Boolean)` (src/index.js lines 95–97) with type code `c`. -/
def attachUrls (typeCode : String) (property : JVal) : List JVal :=
  (((fileListOf property).filter (fun f => strictEqStr (get f "type") typeCode)).map
    (fun f => get f "url")).filter truthy

/-- Source `const bullets = property.bullets || []; Array.isArray(bullets) ?
bullets : [bullets]` (src/index.js lines 98–99). -/
def bulletListOf (property : JVal) : List JVal :=
  match jsOr (jindex property "bullets") (.jarr .nil) with
  | .jarr xs => xs.toList
  | v => [v]

/-- Source `bulletList.map(b => get(b, 'bullet')).filter(Boolean)`
(src/index.js line 100). -/
def amenitiesOf (property : JVal) : List JVal :=
  ((bulletListOf property).map (fun b => get b "bullet")).filter truthy

/-- JS `l.length > 0 ? l : undefined` for output arrays: an empty list is
omitted from the serialized object, modelled as `none`. -/
def omitIfEmpty (l : List JVal) : Option (List JVal) :=
  match l with
  | [] => none
  | _ => some l

/-- Source `parseFloat(get(property, 'rm_type')) || 0` (src/index.js line 105). -/
def rmTypeOf (property : JVal) : ℚ := floatOrZero (get property "rm_type")

/-- The normalized listing produced by `mapProperty` (src/index.js
lines 102–129).  `Option` fields model JS `null` (for numbers) and
`undefined` (for omitted arrays); value-typed fields keep the raw `JVal`
the JS expression produces. -/
structure Listing where
  title : JVal
  description : JVal
  property_type : String
  street_address : JVal
  address : JVal
  city : JVal
  postcode : JVal
  latitude : Option ℚ
  longitude : Option ℚ
  bedrooms : ℤ
  bathrooms : ℤ
  price_monthly : Option ℚ
  deposit_amount : Option ℚ
  available_from : JVal
  furnished : Bool
  bills_included : Bool
  epc_rating : JVal
  council_tax_band : JVal
  images : Option (List JVal)
  floorplans : Option (List JVal)
  virtual_tours : Option (List JVal)
  amenities : Option (List JVal)
  landlord_email : JVal
  landlord_account_type : String
  status : String
  external_id : JVal

/-- Source `mapProperty(property, agentEmail)` body (src/index.js lines 88–133),
field for field.  The surrounding `try`/`catch` is `mapPropertyCaught`. -/
def mapProperty (property agentEmail : JVal) : Listing :=
  let address := addressOf property
  let price := priceOf property
  { title := jsOr (get address "display") (jsOr (get address "street") (.jstr "Property"))
    description := jsOr (get property "description") (.jstr "")
    property_type := mapType (rmTypeOf property)
    street_address := jsOr (get address "street") (.jstr "")
    address := jsOr (get address "display") (.jstr "")
    city := jsOr (get address "town") (.jstr "")
    postcode := jsOr (get address "postcode") (.jstr "")
    latitude := floatOrNull (get property "latitude")
    longitude := floatOrNull (get property "longitude")
    bedrooms := intOrZero (get property "bedrooms")
    bathrooms := intOrZero (get property "bathrooms")
    price_monthly := floatOrNull (get price "$t")
    deposit_amount := floatOrNull (get property "deposit")
    available_from := jsOr (get property "available") (.jstr "")
    furnished := strictEqStr (get property "furnished") "1"
    bills_included := false
    epc_rating := get property "epcrating_current"
    council_tax_band := get property "counciltaxband"
    images := omitIfEmpty (attachUrls "0" property)
    floorplans := omitIfEmpty (attachUrls "2" property)
    virtual_tours := omitIfEmpty (attachUrls "3" property)
    amenities := omitIfEmpty (amenitiesOf property)
    landlord_email := jsOrElseOmit agentEmail
    landlord_account_type := "agent"
    status := "available"
    external_id := get property "prop_id" }

/-- Source `mapProperty` with its `try`/`catch`: the only runtime exception the
body can raise is reading `.address` on a nullish record (every other step
is exception-free), in which case the catch returns `null` (`none`). -/
def mapPropertyCaught (property agentEmail : JVal) : Option Listing :=
  match property with
  | .jnull => none
  | .jundefined => none
  | _ => some (mapProperty property agentEmail)

/-- The token-manager cache slot (src/index.js lines 16–17):
`cachedToken` (string or `null`) and `tokenTimestamp` (number or `null`). -/
structure TokenState where
  cachedToken : Option String
  tokenTimestamp : Option ℤ

/-- Source `TOKEN_TTL = 20 * 60 * 1000` (src/index.js line 18; the part_000
variant uses an expiry computed from a 10-minute TTL instead). -/
def TOKEN_TTL : ℤ := 20 * 60 * 1000

/-- The cache check of `getToken` (src/index.js line 42):
`cachedToken && tokenTimestamp && (now - tokenTimestamp < TOKEN_TTL)`,
with JS truthiness on both slots. -/
def cacheValid (st : TokenState) (now : ℤ) : Bool :=
  match st.cachedToken, st.tokenTimestamp with
  | some t, some ts => !(t == "") && !(ts == 0) && decide (now - ts < TOKEN_TTL)
  | _, _ => false

/-- The upstream `GET {apiBase}/branch` outcome as `getToken` observes it:
the HTTP status check, then the `token`/`Token` response headers
(`none` models an absent header, JS `headers.get` returning `null`). -/
inductive AuthResponse where
  | notOk (status : Nat)
  | okResp (tokenHeader tokenHeaderCap : Option String)

/-- Source `headers.get('token') || headers.get('Token')` (src/index.js line 63):
`null` and `""` are falsy. -/
def pickHeader (a b : Option String) : Option String :=
  match a with
  | some s => if s == "" then b else some s
  | none => b

/-- Truthiness of the picked token, for `if (!token)` (line 65). -/
def headerTruthy : Option String → Bool
  | some s => !(s == "")
  | none => false

/-- The result of one `getToken()` call: the returned token or the thrown
error message, the cache afterwards, and how many upstream authentication
requests the call issued. -/
structure TokenResult where
  outcome : Except String String
  state : TokenState
  requests : Nat

/-- Source `getToken()` (src/index.js lines 39–75) as a function of the cache
state, the current time, and the upstream response it would observe if it
fetched.  A cache hit returns without fetching; otherwise one request is
issued and a non-2xx status or an absent/empty token header throws (there
is no retry — `requests` is 1 in every miss branch). -/
def getToken (st : TokenState) (now : ℤ) (resp : AuthResponse) : TokenResult :=
  if cacheValid st now then
    { outcome := .ok (st.cachedToken.getD ""), state := st, requests := 0 }
  else
    match resp with
    | .notOk status =>
      { outcome := .error ("Failed to get token: " ++ toString status)
        state := st, requests := 1 }
    | .okResp a b =>
      let token := pickHeader a b
      if headerTruthy token then
        { outcome := .ok (token.getD "")
          state := { cachedToken := token, tokenTimestamp := some now }
          requests := 1 }
      else
        { outcome := .error "No token received from Alto", state := st, requests := 1 }

/-- What the detail fetch + XML parse of one property reference produced:
a non-2xx response, a thrown exception (network failure or XML parse
error), or the decoded detail document `propertyData`. -/
inductive FetchOutcome where
  | httpErr
  | exn
  | okDoc (propertyData : JVal)

/-- The accumulator of the `/import` loop (src/index.js lines 181–183),
plus two event counters that record the I/O the loop performs: `fetches`
counts detail-fetch attempts, `mapCalls` counts `mapProperty` invocations. -/
structure ImportState where
  properties : List Listing
  skipped : Nat
  errors : Nat
  fetches : Nat
  mapCalls : Nat

/-- The initial accumulator. -/
def initImport : ImportState :=
  { properties := [], skipped := 0, errors := 0, fetches := 0, mapCalls := 0 }

/-- Source `propertyRef.prop_id?.[0]` (src/index.js line 186). -/
def propIdOf (ref : JVal) : JVal := optIndex0 (jindex ref "prop_id")

/-- Source `propertyRef.url?.[0]` (src/index.js line 187). -/
def propUrlOf (ref : JVal) : JVal := optIndex0 (jindex ref "url")

/-- One iteration of the `/import` loop (src/index.js lines 185–241) over a
property reference, given the detail-fetch outcome the iteration would
observe.  `none` models an uncaught exception aborting the whole import:
it occurs only when the reference itself is nullish (line 186 reads
`.prop_id` outside the `try`); everything inside the `try` is caught and
counted. -/
def importStep (agentEmail : JVal) (st : ImportState) (ref : JVal)
    (fetch : FetchOutcome) : Option ImportState :=
  match ref with
  | .jnull => none
  | .jundefined => none
  | _ =>
    if !truthy (propIdOf ref) || !truthy (propUrlOf ref) then
      some { st with skipped := st.skipped + 1 }
    else
      some (match fetch with
      | .httpErr => { st with errors := st.errors + 1, fetches := st.fetches + 1 }
      | .exn => { st with errors := st.errors + 1, fetches := st.fetches + 1 }
      | .okDoc doc =>
        let property := jindex doc "property"
        if !isStudent property then
          { st with skipped := st.skipped + 1, fetches := st.fetches + 1 }
        else if !isAvailable property then
          { st with skipped := st.skipped + 1, fetches := st.fetches + 1 }
        else
          match mapPropertyCaught property agentEmail with
          | some listing =>
            { st with properties := st.properties ++ [listing]
                      fetches := st.fetches + 1, mapCalls := st.mapCalls + 1 }
          | none =>
            { st with errors := st.errors + 1
                      fetches := st.fetches + 1, mapCalls := st.mapCalls + 1 })

/-- The whole `/import` loop over the decoded property list, each entry
paired with the detail-fetch outcome its iteration would observe. -/
def runImport (agentEmail : JVal) (entries : List (JVal × FetchOutcome)) :
    Option ImportState :=
  entries.foldlM (fun st e => importStep agentEmail st e.1 e.2) initImport

/-! ### Definitions written from the claims' words, for comparison

Each definition below follows a claim's sentence rather than the source,
and is clearly named `claimed…`; theorems compare them with the source
embedding above. -/

/-- Substitute a nonempty array by its first element (the unwrapping the
claim attributes to every walk step). -/
def substHead : JVal → JVal
  | .jarr (.cons x _) => x
  | v => v

/-- Claim C1's accessor walk, word for word: walk segment by segment,
return `null` the moment a segment is absent or `undefined`, and whenever
the value reached at a segment is a nonempty array, substitute its first
element before descending into the next segment. -/
def claimedWalkSubst : JVal → List String → Option JVal
  | v, [] => some v
  | v, k :: ks =>
    match jindex v k with
    | .jundefined => none
    | r => claimedWalkSubst (substHead r) ks

/-- The accessor claim C1 describes. -/
def claimedGet (obj : JVal) (path : String) : JVal :=
  match claimedWalkSubst obj (splitPath path) with
  | none => .jnull
  | some v => v

/-- One plain walk step of the amended claim C1: ordinary key indexing,
`none` on `undefined`, with no array substitution mid-walk. -/
def plainStep (acc : Option JVal) (k : String) : Option JVal :=
  match acc with
  | none => none
  | some v =>
    match jindex v k with
    | .jundefined => none
    | r => some r

/-- The accessor the amended claim C1 describes: plain walk over the
segments; only the final resolved value, when a nonempty array, is
replaced by its first element, and a falsy final value is returned as
`null`. -/
def amendedGet (obj : JVal) (path : String) : JVal :=
  match (splitPath path).foldl plainStep (some obj) with
  | none => .jnull
  | some r =>
    match r with
    | .jarr (.cons x _) => x
    | v => if truthy v then v else .jnull

/-- Claim C2's classification text, word for word: the lowercase
concatenation of `letting_type`, `market`, `description` and `title`,
missing fields contributing the empty string, joined with single spaces. -/
def claimedStudentText (p : JVal) : String :=
  toLowerStr (jsJoinItem (get p "letting_type") ++ " " ++ jsJoinItem (get p "market") ++
    " " ++ jsJoinItem (get p "description") ++ " " ++ jsJoinItem (get p "title"))

/-- Claim C2's bedroom count: the field parsed as an integer, defaulting
to 0 on parse failure. -/
def claimedBedrooms (p : JVal) : ℤ :=
  match parseIntJ (get p "bedrooms") with
  | none => 0
  | some n => n

/-- Claim C4's `property_type` derivation: the parsed `rm_type` mapped by
range 1–6 (the vendor codes are integers, so the inclusive interval and
the integer range coincide on all feed values) to `"house"`, exactly 9 to
`"studio"`, everything else — including parse failure — to `"flat"`. -/
def claimedPropertyType (parsed : Option ℚ) : String :=
  match parsed with
  | none => "flat"
  | some q => if 1 ≤ q ∧ q ≤ 6 then "house" else if q = 9 then "studio" else "flat"

/-! ### Helper lemmas -/

theorem foldl_plainStep_none (ks : List String) : ks.foldl plainStep none = none := by
  induction ks with
  | nil => rfl
  | cons k ks ih => simpa [plainStep] using ih

theorem walkKeys_eq_foldl (ks : List String) :
    ∀ obj : JVal, walkKeys obj ks = ks.foldl plainStep (some obj) := by
  induction ks with
  | nil => intro obj; rfl
  | cons k ks ih =>
    intro obj
    show (match jindex obj k with | .jundefined => none | r => walkKeys r ks)
        = ks.foldl plainStep (plainStep (some obj) k)
    cases h : jindex obj k <;>
      simp [plainStep, h, ih, foldl_plainStep_none]

theorem classificationText_eq (p : JVal) : classificationText p = claimedStudentText p := by
  unfold classificationText claimedStudentText
  show toLowerStr (jsJoinItem (get p "letting_type") ++ " " ++
      (jsJoinItem (get p "market") ++ " " ++
        (jsJoinItem (get p "description") ++ " " ++ jsJoinItem (get p "title")))) = _
  simp [String.append_assoc]

theorem bedroomsOf_eq (p : JVal) : bedroomsOf p = claimedBedrooms p := by
  unfold bedroomsOf intOrZero claimedBedrooms
  cases parseIntJ (get p "bedrooms") <;> rfl

theorem importStep_nonnull (agentEmail : JVal) (st : ImportState) (ref : JVal)
    (fetch : FetchOutcome) (h1 : ref ≠ .jnull) (h2 : ref ≠ .jundefined) :
    importStep agentEmail st ref fetch =
      (if !truthy (propIdOf ref) || !truthy (propUrlOf ref) then
        some { st with skipped := st.skipped + 1 }
      else
        some (match fetch with
        | .httpErr => { st with errors := st.errors + 1, fetches := st.fetches + 1 }
        | .exn => { st with errors := st.errors + 1, fetches := st.fetches + 1 }
        | .okDoc doc =>
          let property := jindex doc "property"
          if !isStudent property then
            { st with skipped := st.skipped + 1, fetches := st.fetches + 1 }
          else if !isAvailable property then
            { st with skipped := st.skipped + 1, fetches := st.fetches + 1 }
          else
            match mapPropertyCaught property agentEmail with
            | some listing =>
              { st with properties := st.properties ++ [listing]
                        fetches := st.fetches + 1, mapCalls := st.mapCalls + 1 }
            | none =>
              { st with errors := st.errors + 1
                        fetches := st.fetches + 1, mapCalls := st.mapCalls + 1 })) := by
  cases ref <;> first
    | exact absurd rfl h1
    | exact absurd rfl h2
    | rfl

theorem importStep_total :
    ∀ (agentEmail : JVal) (st : ImportState) (ref : JVal) (fetch : FetchOutcome),
      ref ≠ .jnull → ref ≠ .jundefined →
      ∃ st', importStep agentEmail st ref fetch = some st' ∧
        st'.properties.length + st'.skipped + st'.errors
          = st.properties.length + st.skipped + st.errors + 1 ∧
        ((st'.skipped = st.skipped + 1 ∧ st'.errors = st.errors ∧
            st'.properties = st.properties) ∨
         (st'.errors = st.errors + 1 ∧ st'.skipped = st.skipped ∧
            st'.properties = st.properties) ∨
         (∃ l, st'.properties = st.properties ++ [l] ∧ st'.skipped = st.skipped ∧
            st'.errors = st.errors)) := by
  intro agentEmail st ref fetch hn hu
  have hstep : ∃ st', importStep agentEmail st ref fetch = some st' ∧
      (st' = { st with skipped := st.skipped + 1 } ∨
       st' = { st with skipped := st.skipped + 1, fetches := st.fetches + 1 } ∨
       st' = { st with errors := st.errors + 1, fetches := st.fetches + 1 } ∨
       (∃ l, st' = { st with properties := st.properties ++ [l]
                             fetches := st.fetches + 1, mapCalls := st.mapCalls + 1 }) ∨
       st' = { st with errors := st.errors + 1
                       fetches := st.fetches + 1, mapCalls := st.mapCalls + 1 }) := by
    rw [importStep_nonnull agentEmail st ref fetch hn hu]
    by_cases hc : (!truthy (propIdOf ref) || !truthy (propUrlOf ref)) = true
    · rw [if_pos hc]
      exact ⟨_, rfl, .inl rfl⟩
    · rw [if_neg hc]
      cases fetch with
      | httpErr => exact ⟨_, rfl, .inr (.inr (.inl rfl))⟩
      | exn => exact ⟨_, rfl, .inr (.inr (.inl rfl))⟩
      | okDoc doc =>
        by_cases hs : isStudent (jindex doc "property") = true
        · by_cases ha : isAvailable (jindex doc "property") = true
          · cases hm : mapPropertyCaught (jindex doc "property") agentEmail with
            | some l =>
              refine ⟨_, ?_, .inr (.inr (.inr (.inl ⟨l, rfl⟩)))⟩
              simp only [hs, ha, hm, Bool.not_true, Bool.false_eq_true, if_false]
            | none =>
              refine ⟨_, ?_, .inr (.inr (.inr (.inr rfl)))⟩
              simp only [hs, ha, hm, Bool.not_true, Bool.false_eq_true, if_false]
          · refine ⟨_, ?_, .inr (.inl rfl)⟩
            simp only [hs, eq_false_of_ne_true ha, Bool.not_true, Bool.not_false,
              Bool.false_eq_true, if_false, if_true]
        · refine ⟨_, ?_, .inr (.inl rfl)⟩
          simp only [eq_false_of_ne_true hs, Bool.not_false, if_true]
  obtain ⟨st', hs, hcases⟩ := hstep
  refine ⟨st', hs, ?_⟩
  rcases hcases with rfl | rfl | rfl | ⟨l, rfl⟩ | rfl <;>
    simp [List.length_append] <;> omega

theorem runImport_count_from (agentEmail : JVal) :
    ∀ (entries : List (JVal × FetchOutcome)) (st0 : ImportState),
      (∀ e ∈ entries, e.1 ≠ .jnull ∧ e.1 ≠ .jundefined) →
      ∃ st, entries.foldlM (fun st e => importStep agentEmail st e.1 e.2) st0 = some st ∧
        st.properties.length + st.skipped + st.errors
          = st0.properties.length + st0.skipped + st0.errors + entries.length := by
  intro entries
  induction entries with
  | nil => exact fun st0 _ => ⟨st0, rfl, by simp⟩
  | cons e es ih =>
    intro st0 h
    obtain ⟨h1, h2⟩ := h e (List.mem_cons_self e es)
    obtain ⟨st1, hs, hc, _⟩ := importStep_total agentEmail st0 e.1 e.2 h1 h2
    obtain ⟨st, hrun, hcount⟩ := ih st1 (fun x hx => h x (List.mem_cons_of_mem e hx))
    refine ⟨st, ?_, by simp only [List.length_cons]; omega⟩
    rw [List.foldlM_cons, hs]
    exact hrun

theorem jobj_ne_jnull (fs : JFields) : JVal.jobj fs ≠ .jnull :=
  fun h => JVal.noConfusion h

theorem jobj_ne_jundefined (fs : JFields) : JVal.jobj fs ≠ .jundefined :=
  fun h => JVal.noConfusion h

theorem jobj_ne_jarr (fs : JFields) (xs : JList) : JVal.jobj fs ≠ .jarr xs :=
  fun h => JVal.noConfusion h

/-! ### The claims -/

/-- C1 (amended): the field accessor walks the dot-separated path with
plain key indexing — no array unwrapping at intermediate segments — and
returns `null` as soon as any segment is absent or `undefined`, never
throwing; only the final resolved value, when it is an array with at least
one element, is replaced by its first element, a falsy final value being
returned as `null`. -/
theorem claim_C1 : ∀ (obj : JVal) (path : String), get obj path = amendedGet obj path := by
  intro obj path
  unfold get amendedGet
  rw [walkKeys_eq_foldl]

/-- C1 counterexample: on `{a: [{b: "x"}]}` with path `"a.b"` the claimed
accessor (substitute a nonempty array's first element before descending)
yields `"x"`, but the code's `get` yields `null` — the array is unwrapped
only after the walk, so the intermediate array makes the next segment an
absent array key. -/
theorem claim_C1_counterexample :
    get (jobjL [("a", jarrL [jobjL [("b", .jstr "x")]])]) "a.b" = .jnull ∧
      claimedGet (jobjL [("a", jarrL [jobjL [("b", .jstr "x")]])]) "a.b" = .jstr "x" :=
  ⟨rfl, rfl⟩

/-- C2: the is-student-letting predicate holds iff the lowercase
space-joined concatenation of `letting_type`, `market`, `description` and
`title` (missing fields contributing `""`) contains `"student"`, or
`"letting"`, or `"to let"`, or the bedroom count (parsed as an integer,
default 0) is at least 3; a record with bedrooms 3 and no keywords passes,
one with bedrooms 2 and no keywords fails. -/
theorem claim_C2 :
    (∀ p : JVal,
      isStudent p =
        (containsSubstr (claimedStudentText p) "student" ||
          containsSubstr (claimedStudentText p) "letting" ||
          containsSubstr (claimedStudentText p) "to let" ||
          decide (3 ≤ claimedBedrooms p))) ∧
    isStudent (jobjL [("bedrooms", jarrL [.jstr "3"])]) = true ∧
    isStudent (jobjL [("bedrooms", jarrL [.jstr "2"])]) = false := by
  refine ⟨fun p => ?_, rfl, rfl⟩
  unfold isStudent
  rw [classificationText_eq, bedroomsOf_eq]
  simp [Bool.or_assoc, Bool.or_comm, Bool.or_left_comm]

/-- C3: the is-available predicate holds iff the value read for
`web_status` is `null` (the accessor's result for an absent field) or
falsy, or is the string `"0"`, or the string `"100"`; and a record that
reaches the availability check and fails it makes the loop iteration
count one more skip, leaving the output, the error counter and the
mapper untouched — no error is raised. -/
theorem claim_C3 :
    (∀ p : JVal,
      isAvailable p = true ↔
        get p "web_status" = .jnull ∨ truthy (get p "web_status") = false ∨
          get p "web_status" = .jstr "0" ∨ get p "web_status" = .jstr "100") ∧
    (∀ (agentEmail : JVal) (st : ImportState) (ref doc : JVal),
      ref ≠ .jnull → ref ≠ .jundefined →
      truthy (propIdOf ref) = true → truthy (propUrlOf ref) = true →
      isStudent (jindex doc "property") = true →
      isAvailable (jindex doc "property") = false →
      importStep agentEmail st ref (.okDoc doc) =
        some { st with skipped := st.skipped + 1, fetches := st.fetches + 1 }) := by
  constructor
  · intro p
    unfold isAvailable strictEqStr
    cases h : get p "web_status" <;> simp [truthy, h, beq_iff_eq, or_assoc]
  · intro agentEmail st ref doc h1 h2 h3 h4 h5 h6
    cases ref <;> first
      | exact absurd rfl h1
      | exact absurd rfl h2
      | simp [importStep, h3, h4, h5, h6]

/-- C4: `property_type` is derived by parsing `rm_type` as a float
(default 0 on failure or absence) and mapping the range 1–6 to `"house"`,
exactly 9 to `"studio"`, and everything else — including parse failure —
to `"flat"`; in particular `rm_type` 3 gives `"house"`, 9 gives
`"studio"`, 20 or absent gives `"flat"`. -/
theorem claim_C4 :
    (∀ (p a : JVal),
      (mapProperty p a).property_type = claimedPropertyType (parseFloatJ (get p "rm_type"))) ∧
    (mapProperty (jobjL [("rm_type", jarrL [.jstr "3"])]) .jundefined).property_type = "house" ∧
    (mapProperty (jobjL [("rm_type", jarrL [.jstr "9"])]) .jundefined).property_type = "studio" ∧
    (mapProperty (jobjL [("rm_type", jarrL [.jstr "20"])]) .jundefined).property_type = "flat" ∧
    (mapProperty (jobjL []) .jundefined).property_type = "flat" := by
  refine ⟨fun p a => ?_, by decide, by decide, by decide, by decide⟩
  show mapType (rmTypeOf p) = _
  unfold rmTypeOf floatOrZero claimedPropertyType
  cases parseFloatJ (get p "rm_type") with
  | none => show mapType 0 = "flat"; decide
  | some q => rfl

/-- C5: the files list (normalized to an array even when the vendor
returned a single object) is partitioned by type code — `"0"` to images,
`"2"` to floorplans, `"3"` to virtual tours — an entry's url appears in a
partition exactly when the entry carries that type code and a truthy url
(entries lacking a url are dropped regardless of type), and an empty
partition is omitted from the output rather than emitted as an empty
array. -/
theorem claim_C5 :
    (∀ (p a : JVal),
      ((mapProperty p a).images = none ↔ attachUrls "0" p = []) ∧
      ((mapProperty p a).floorplans = none ↔ attachUrls "2" p = []) ∧
      ((mapProperty p a).virtual_tours = none ↔ attachUrls "3" p = []) ∧
      (∀ l, (mapProperty p a).images = some l → l = attachUrls "0" p) ∧
      (∀ l, (mapProperty p a).floorplans = some l → l = attachUrls "2" p) ∧
      (∀ l, (mapProperty p a).virtual_tours = some l → l = attachUrls "3" p)) ∧
    (∀ (c : String) (p u : JVal),
      u ∈ attachUrls c p ↔
        ∃ f ∈ fileListOf p, strictEqStr (get f "type") c = true ∧
          get f "url" = u ∧ truthy u = true) ∧
    (∀ (v : JVal) (fs : JFields), (∀ xs, v ≠ .jarr xs) → truthy v = true →
      fileListOf (.jobj (.cons "files" v fs)) = [v]) := by
  refine ⟨fun p a => ?_, fun c p u => ?_, fun v fs hv ht => ?_⟩
  · have h : ∀ l, (omitIfEmpty l = none ↔ l = []) ∧ (∀ l', omitIfEmpty l = some l' → l' = l) := by
      intro l
      cases l <;> simp [omitIfEmpty]
    exact ⟨(h _).1, (h _).1, (h _).1, (h _).2, (h _).2, (h _).2⟩
  · unfold attachUrls
    simp only [List.mem_filter, List.mem_map]
    constructor
    · rintro ⟨⟨f, ⟨hf, hty⟩, rfl⟩, htr⟩
      exact ⟨f, hf, hty, rfl, htr⟩
    · rintro ⟨f, hf, hty, rfl, htr⟩
      exact ⟨⟨f, ⟨hf, hty⟩, rfl⟩, htr⟩
  · cases v with
    | jarr xs => exact absurd rfl (hv xs)
    | jnull => simp [truthy] at ht
    | jundefined => simp [truthy] at ht
    | jstr s =>
      unfold fileListOf jindex
      simp [JFields.lookup, jsOr, ht]
    | jnum q =>
      unfold fileListOf jindex
      simp [JFields.lookup, jsOr, ht]
    | jbool b =>
      unfold fileListOf jindex
      simp [JFields.lookup, jsOr, ht]
    | jobj gs =>
      unfold fileListOf jindex
      simp [JFields.lookup, jsOr, ht]

/-- C6 (amended): `price_monthly`, `deposit_amount`, `latitude` and
`longitude` are parsed as floats and `bedrooms`/`bathrooms` as integers;
an unparsable or absent vendor value yields the field's default (`null`
for the float fields, 0 for the integer fields), a float value parsing to
0 also yields `null` (the `|| null` coercion), and otherwise the parsed
value is output — for the integer fields the parsed value is always
output, a parsed 0 coinciding with the default. -/
theorem claim_C6 :
    ∀ (p a : JVal),
      (parseFloatJ (get p "latitude") = none → (mapProperty p a).latitude = none) ∧
      (parseFloatJ (get p "latitude") = some 0 → (mapProperty p a).latitude = none) ∧
      (∀ q, parseFloatJ (get p "latitude") = some q → q ≠ 0 →
        (mapProperty p a).latitude = some q) ∧
      (parseFloatJ (get p "longitude") = none → (mapProperty p a).longitude = none) ∧
      (parseFloatJ (get p "longitude") = some 0 → (mapProperty p a).longitude = none) ∧
      (∀ q, parseFloatJ (get p "longitude") = some q → q ≠ 0 →
        (mapProperty p a).longitude = some q) ∧
      (parseFloatJ (get (priceOf p) "$t") = none → (mapProperty p a).price_monthly = none) ∧
      (parseFloatJ (get (priceOf p) "$t") = some 0 → (mapProperty p a).price_monthly = none) ∧
      (∀ q, parseFloatJ (get (priceOf p) "$t") = some q → q ≠ 0 →
        (mapProperty p a).price_monthly = some q) ∧
      (parseFloatJ (get p "deposit") = none → (mapProperty p a).deposit_amount = none) ∧
      (parseFloatJ (get p "deposit") = some 0 → (mapProperty p a).deposit_amount = none) ∧
      (∀ q, parseFloatJ (get p "deposit") = some q → q ≠ 0 →
        (mapProperty p a).deposit_amount = some q) ∧
      (parseIntJ (get p "bedrooms") = none → (mapProperty p a).bedrooms = 0) ∧
      (∀ n, parseIntJ (get p "bedrooms") = some n → (mapProperty p a).bedrooms = n) ∧
      (parseIntJ (get p "bathrooms") = none → (mapProperty p a).bathrooms = 0) ∧
      (∀ n, parseIntJ (get p "bathrooms") = some n → (mapProperty p a).bathrooms = n) := by
  intro p a
  have hf : ∀ v : JVal,
      (parseFloatJ v = none → floatOrNull v = none) ∧
      (parseFloatJ v = some 0 → floatOrNull v = none) ∧
      (∀ q, parseFloatJ v = some q → q ≠ 0 → floatOrNull v = some q) := by
    intro v
    refine ⟨fun h => ?_, fun h => ?_, fun q h hq => ?_⟩
    · simp [floatOrNull, h]
    · simp [floatOrNull, h]
    · simp [floatOrNull, h, hq]
  have hi : ∀ v : JVal,
      (parseIntJ v = none → intOrZero v = 0) ∧
      (∀ n, parseIntJ v = some n → intOrZero v = n) := by
    intro v
    exact ⟨fun h => by simp [intOrZero, h], fun n h => by simp [intOrZero, h]⟩
  exact ⟨(hf _).1, (hf _).2.1, (hf _).2.2, (hf _).1, (hf _).2.1, (hf _).2.2,
    (hf _).1, (hf _).2.1, (hf _).2.2, (hf _).1, (hf _).2.1, (hf _).2.2,
    (hi _).1, (hi _).2, (hi _).1, (hi _).2⟩

/-- C6 counterexample: a record whose `latitude` is the string `"0"`
parses successfully to the number 0, yet the mapped listing carries
`latitude = null` — the parsed numeric value is NOT output whenever the
vendor value parses, because `parseFloat(...) || null` coerces a parsed
0 to `null`. -/
theorem claim_C6_counterexample :
    parseFloatJ (get (jobjL [("latitude", jarrL [.jstr "0"])]) "latitude") = some 0 ∧
      (mapProperty (jobjL [("latitude", jarrL [.jstr "0"])]) .jundefined).latitude = none := by
  decide

/-- C7: a property-list entry whose `prop_id` or `url` is missing (falsy
after unwrapping) makes the loop iteration increment `skipped` and move
on: no detail fetch is issued (`fetches` unchanged), the Mapper is not
invoked (`mapCalls` unchanged), nothing is appended to the output, no
error is counted, and the iteration returns normally rather than aborting
the import. -/
theorem claim_C7 :
    ∀ (agentEmail : JVal) (st : ImportState) (ref : JVal) (fetch : FetchOutcome),
      ref ≠ .jnull → ref ≠ .jundefined →
      (truthy (propIdOf ref) = false ∨ truthy (propUrlOf ref) = false) →
      importStep agentEmail st ref fetch = some { st with skipped := st.skipped + 1 } := by
  intro agentEmail st ref fetch h1 h2 h
  cases ref <;> first
    | exact absurd rfl h1
    | exact absurd rfl h2
    | rcases h with h | h <;> simp [importStep, h]

/-- C8: a `getToken()` call that finds a cached token younger than the
TTL returns that cached token, leaves the cache unchanged and issues no
upstream authentication request; consequently a fresh-cache call followed
by a second call within the TTL issues exactly one upstream request
between them, the second call reproducing the first call's token.  When
no valid cached token exists, the single upstream attempt fails hard —
without retrying — on a non-2xx response or an absent/empty token header,
leaving the cache unchanged. -/
theorem claim_C8 :
    (∀ (st : TokenState) (now : ℤ) (resp : AuthResponse),
      cacheValid st now = true →
      getToken st now resp =
        { outcome := .ok (st.cachedToken.getD ""), state := st, requests := 0 }) ∧
    (∀ (st0 : TokenState) (now1 now2 : ℤ) (a b : Option String) (resp2 : AuthResponse),
      cacheValid st0 now1 = false → headerTruthy (pickHeader a b) = true →
      0 < now1 → now2 - now1 < TOKEN_TTL →
      (getToken st0 now1 (.okResp a b)).requests +
          (getToken (getToken st0 now1 (.okResp a b)).state now2 resp2).requests = 1 ∧
        (getToken (getToken st0 now1 (.okResp a b)).state now2 resp2).outcome =
          (getToken st0 now1 (.okResp a b)).outcome ∧
        (getToken (getToken st0 now1 (.okResp a b)).state now2 resp2).state =
          (getToken st0 now1 (.okResp a b)).state) ∧
    (∀ (st : TokenState) (now : ℤ) (s : Nat) (a b : Option String),
      cacheValid st now = false →
      getToken st now (.notOk s) =
        { outcome := .error ("Failed to get token: " ++ toString s)
          state := st, requests := 1 } ∧
      (headerTruthy (pickHeader a b) = false →
        getToken st now (.okResp a b) =
          { outcome := .error "No token received from Alto", state := st, requests := 1 })) := by
  refine ⟨fun st now resp h => ?_, fun st0 now1 now2 a b resp2 h1 h2 h3 h4 => ?_,
    fun st now s a b h => ⟨?_, fun h2 => ?_⟩⟩
  · simp [getToken, h]
  · obtain ⟨t, ht, htne⟩ : ∃ t, pickHeader a b = some t ∧ (t == "") = false := by
      cases hp : pickHeader a b with
      | none => rw [hp] at h2; simp [headerTruthy] at h2
      | some t => rw [hp] at h2; simp only [headerTruthy] at h2
                  exact ⟨t, rfl, by simpa using h2⟩
    have hr1 : getToken st0 now1 (.okResp a b) =
        { outcome := .ok t
          state := { cachedToken := some t, tokenTimestamp := some now1 }
          requests := 1 } := by
      simp [getToken, h1, ht, headerTruthy, htne]
    have hvalid : cacheValid { cachedToken := some t, tokenTimestamp := some now1 } now2 = true := by
      have : (now1 == 0) = false := by
        simp only [beq_eq_false_iff_ne, ne_eq]
        omega
      simp [cacheValid, htne, this, h4]
    rw [hr1]
    simp [getToken, hvalid]
  · simp [getToken, h]
  · simp [getToken, h, h2]

/-- C9: in the src/index.js variant, every non-nullish property-list
entry is accounted for exactly once — each iteration either increments
`skipped`, increments `errors`, or appends exactly one listing — so the
response satisfies `total_found = total + skipped + errors`, where
`total` is the length of the returned properties array. -/
theorem claim_C9 :
    (∀ (agentEmail : JVal) (st : ImportState) (ref : JVal) (fetch : FetchOutcome),
      ref ≠ .jnull → ref ≠ .jundefined →
      ∃ st', importStep agentEmail st ref fetch = some st' ∧
        st'.properties.length + st'.skipped + st'.errors
          = st.properties.length + st.skipped + st.errors + 1 ∧
        ((st'.skipped = st.skipped + 1 ∧ st'.errors = st.errors ∧
            st'.properties = st.properties) ∨
         (st'.errors = st.errors + 1 ∧ st'.skipped = st.skipped ∧
            st'.properties = st.properties) ∨
         (∃ l, st'.properties = st.properties ++ [l] ∧ st'.skipped = st.skipped ∧
            st'.errors = st.errors))) ∧
    (∀ (agentEmail : JVal) (entries : List (JVal × FetchOutcome)),
      (∀ e ∈ entries, e.1 ≠ .jnull ∧ e.1 ≠ .jundefined) →
      ∃ st, runImport agentEmail entries = some st ∧
        entries.length = st.properties.length + st.skipped + st.errors) := by
  constructor
  · exact importStep_total
  · intro agentEmail entries h
    obtain ⟨st, hrun, hcount⟩ := runImport_count_from agentEmail entries initImport h
    exact ⟨st, hrun, by simpa [initImport] using hcount.symm⟩

/-- C10: whenever the value the accessor's walk resolves is falsy but
defined — the empty string, the number 0, or `false` — `get` returns
`null` instead of that value; consequently a `web_status` holding the
empty string is read exactly like an absent `web_status` (both give
`null`, and the record counts as available), and an empty-string leaf
such as `epcrating_current` is emitted as `null` rather than `""`. -/
theorem claim_C10 :
    (∀ (obj : JVal) (path : String) (v : JVal),
      walkKeys obj (splitPath path) = some v →
      (v = .jstr "" ∨ v = .jnum 0 ∨ v = .jbool false) →
      get obj path = .jnull) ∧
    (∀ fs : JFields,
      get (.jobj (.cons "web_status" (.jstr "") fs)) "web_status" = .jnull ∧
      isAvailable (.jobj (.cons "web_status" (.jstr "") fs)) = true) ∧
    (∀ fs : JFields, JFields.lookup fs "web_status" = none →
      get (.jobj fs) "web_status" = .jnull ∧ isAvailable (.jobj fs) = true) ∧
    (∀ (p a : JVal),
      walkKeys p (splitPath "epcrating_current") = some (.jstr "") →
      (mapProperty p a).epc_rating = .jnull) := by
  have key : ∀ (obj : JVal) (path : String) (v : JVal),
      walkKeys obj (splitPath path) = some v →
      (v = .jstr "" ∨ v = .jnum 0 ∨ v = .jbool false) →
      get obj path = .jnull := by
    intro obj path v h hv
    unfold get
    rw [h]
    rcases hv with rfl | rfl | rfl <;> rfl
  refine ⟨key, fun fs => ⟨rfl, rfl⟩, fun fs h => ?_, fun p a h => key p "epcrating_current" _ h (.inl rfl)⟩
  have hw : walkKeys (.jobj fs) (splitPath "web_status") = none := by
    show (match jindex (.jobj fs) "web_status" with
      | .jundefined => none
      | r => walkKeys r []) = none
    simp [jindex, h]
  constructor
  · unfold get
    rw [hw]
  · unfold isAvailable
    have : get (.jobj fs) "web_status" = .jnull := by unfold get; rw [hw]
    rw [this]
    rfl

/-! ### Witnesses -/

/-- Witness for C3: a concrete record with four bedrooms but
`web_status = "1"` is counted as one more skip, with one fetch and no
output, error or mapper call. -/
theorem claim_C3_witness :
    importStep .jundefined initImport
        (jobjL [("prop_id", jarrL [.jstr "7"]), ("url", jarrL [.jstr "u"])])
        (.okDoc (jobjL [("property",
          jobjL [("bedrooms", jarrL [.jstr "4"]), ("web_status", jarrL [.jstr "1"])])]))
      = some { initImport with skipped := 1, fetches := 1 } :=
  claim_C3.2 .jundefined initImport
    (jobjL [("prop_id", jarrL [.jstr "7"]), ("url", jarrL [.jstr "u"])])
    (jobjL [("property",
      jobjL [("bedrooms", jarrL [.jstr "4"]), ("web_status", jarrL [.jstr "1"])])])
    (jobj_ne_jnull _) (jobj_ne_jundefined _) rfl rfl rfl rfl

/-- Witness for C5: a concrete record with one complete `type = "0"`
entry and one url-less `type = "0"` entry yields exactly the complete
entry's url in `images`, and a single-object `files` value is normalized
to a one-element list. -/
theorem claim_C5_witness :
    [(.jstr "http://x/img.jpg" : JVal)] =
      attachUrls "0" (jobjL [("files", jarrL
        [jobjL [("type", jarrL [.jstr "0"]), ("url", jarrL [.jstr "http://x/img.jpg"])],
         jobjL [("type", jarrL [.jstr "0"])]])]) ∧
    fileListOf (.jobj (.cons "files" (jobjL [("type", jarrL [.jstr "0"])]) .nil))
      = [jobjL [("type", jarrL [.jstr "0"])]] :=
  ⟨(claim_C5.1 (jobjL [("files", jarrL
      [jobjL [("type", jarrL [.jstr "0"]), ("url", jarrL [.jstr "http://x/img.jpg"])],
       jobjL [("type", jarrL [.jstr "0"])]])]) .jundefined).2.2.2.1
      [.jstr "http://x/img.jpg"] rfl,
    claim_C5.2.2 (jobjL [("type", jarrL [.jstr "0"])]) .nil
      (fun xs => jobj_ne_jarr _ xs) rfl⟩

/-- Witness for C6 (amended): latitude `"51.5"` parses and is emitted as
51.5; an unparsable deposit is emitted as `null`; bedrooms `"2"` parses
and is emitted as 2. -/
theorem claim_C6_witness :
    (mapProperty (jobjL [("latitude", jarrL [.jstr "51.5"]),
        ("bedrooms", jarrL [.jstr "2"]), ("deposit", jarrL [.jstr "abc"])])
      (.jstr "agent@example.com")).latitude = some (mkRat 103 2) ∧
    (mapProperty (jobjL [("latitude", jarrL [.jstr "51.5"]),
        ("bedrooms", jarrL [.jstr "2"]), ("deposit", jarrL [.jstr "abc"])])
      (.jstr "agent@example.com")).deposit_amount = none ∧
    (mapProperty (jobjL [("latitude", jarrL [.jstr "51.5"]),
        ("bedrooms", jarrL [.jstr "2"]), ("deposit", jarrL [.jstr "abc"])])
      (.jstr "agent@example.com")).bedrooms = 2 := by
  have h := claim_C6 (jobjL [("latitude", jarrL [.jstr "51.5"]),
      ("bedrooms", jarrL [.jstr "2"]), ("deposit", jarrL [.jstr "abc"])])
    (.jstr "agent@example.com")
  exact ⟨h.2.2.1 (mkRat 103 2) (by decide) (by decide),
    h.2.2.2.2.2.2.2.2.2.1 (by decide),
    h.2.2.2.2.2.2.2.2.2.2.2.2.2.1 2 (by decide)⟩

/-- Witness for C7: a reference carrying only `prop_id` is skipped with
no fetch, no mapper call and no error, whatever the fetch would have
returned. -/
theorem claim_C7_witness :
    importStep .jundefined initImport (jobjL [("prop_id", jarrL [.jstr "1"])]) .httpErr
      = some { initImport with skipped := 1 } :=
  claim_C7 .jundefined initImport (jobjL [("prop_id", jarrL [.jstr "1"])]) .httpErr
    (jobj_ne_jnull _) (jobj_ne_jundefined _) (Or.inr rfl)

/-- Witness for C8: starting from an empty cache, a successful call at
time 1 followed by any call at time 2 issues exactly one upstream request
in total, and a separate valid-cache call returns its cached token with
zero requests. -/
theorem claim_C8_witness :
    ((getToken { cachedToken := none, tokenTimestamp := none } 1
          (.okResp (some "tok7") none)).requests +
        (getToken (getToken { cachedToken := none, tokenTimestamp := none } 1
          (.okResp (some "tok7") none)).state 2 (.notOk 500)).requests = 1 ∧
      (getToken (getToken { cachedToken := none, tokenTimestamp := none } 1
          (.okResp (some "tok7") none)).state 2 (.notOk 500)).outcome =
        (getToken { cachedToken := none, tokenTimestamp := none } 1
          (.okResp (some "tok7") none)).outcome ∧
      (getToken (getToken { cachedToken := none, tokenTimestamp := none } 1
          (.okResp (some "tok7") none)).state 2 (.notOk 500)).state =
        (getToken { cachedToken := none, tokenTimestamp := none } 1
          (.okResp (some "tok7") none)).state) ∧
    getToken { cachedToken := some "t", tokenTimestamp := some 1 } 2 (.notOk 404) =
      { outcome := .ok ((some "t").getD ""),
        state := { cachedToken := some "t", tokenTimestamp := some 1 }, requests := 0 } :=
  ⟨claim_C8.2.1 { cachedToken := none, tokenTimestamp := none } 1 2 (some "tok7") none
      (.notOk 500) rfl rfl (by decide) (by decide),
    claim_C8.1 { cachedToken := some "t", tokenTimestamp := some 1 } 2 (.notOk 404) (by decide)⟩

/-- Witness for C9: a single-entry list whose detail fetch fails is fully
accounted for — one entry, and the final counters sum to one. -/
theorem claim_C9_witness :
    ∃ st, runImport .jundefined [(jobjL [("prop_id", jarrL [.jstr "1"]),
        ("url", jarrL [.jstr "u"])], FetchOutcome.httpErr)] = some st ∧
      1 = st.properties.length + st.skipped + st.errors := by
  have h := claim_C9.2 .jundefined [(jobjL [("prop_id", jarrL [.jstr "1"]),
      ("url", jarrL [.jstr "u"])], FetchOutcome.httpErr)]
    (by intro e he
        rw [List.mem_singleton] at he
        subst he
        exact ⟨jobj_ne_jnull _, jobj_ne_jundefined _⟩)
  simpa using h

/-- Witness for C10: a leaf holding `""` reads back as `null`; an object
without `web_status` also reads `null` and is available; an
`epcrating_current` of `""` is emitted as `null`. -/
theorem claim_C10_witness :
    get (jobjL [("k", .jstr "")]) "k" = .jnull ∧
    (get (.jobj .nil) "web_status" = .jnull ∧ isAvailable (.jobj .nil) = true) ∧
    (mapProperty (jobjL [("epcrating_current", .jstr "")]) .jnull).epc_rating = .jnull :=
  ⟨claim_C10.1 (jobjL [("k", .jstr "")]) "k" (.jstr "") rfl (.inl rfl),
    claim_C10.2.2.1 .nil rfl,
    claim_C10.2.2.2 (jobjL [("epcrating_current", .jstr "")]) .jnull rfl⟩

end Alto

